import Mathlib

/-!
Verification of the OCaml platform extension (src/extension.js) against its
natural-language specification.

The JavaScript source is shallowly embedded: filesystem access is modelled by
a pure predicate `String → Bool` (a snapshot of which paths exist), VS Code
UI interactions (active editor, quick picks, dialogs) are modelled as explicit
inputs, subprocess execution is modelled by a pure runner
`String → String → ExecResult` (working directory and command line to exec
result), and promise resolution/rejection is an explicit `PromiseOutcome`.
JavaScript string operations are embedded with their ECMAScript semantics:
`String.prototype.replace` with a string pattern replaces the FIRST
occurrence, `trim` strips whitespace from both ends, `split` on a newline
keeps empty pieces between adjacent separators.
-/

namespace OcamlExt

/-- Whitespace for the purposes of the embedded `trim` (the ASCII whitespace
characters JavaScript `String.prototype.trim` removes; the exotic Unicode
space characters never occur in the strings this program handles). -/
def isJsSpace (c : Char) : Bool :=
  c = ' ' || c = '\t' || c = '\n' || c = '\r' || c = '\x0b' || c = '\x0c'

/-- Strip `isJsSpace` characters from both ends of a character list. -/
def trimCh (l : List Char) : List Char :=
  ((l.dropWhile isJsSpace).reverse.dropWhile isJsSpace).reverse

/-- Embedding of JavaScript `s.trim()`. -/
def jsTrim (s : String) : String :=
  ⟨trimCh s.data⟩

/-- Split a character list at each newline character, keeping empty pieces
(the semantics of JavaScript `s.split('\n')`: splitting the empty string
yields one empty piece, adjacent newlines yield empty pieces in between). -/
def splitNlCh : List Char → List (List Char)
  | [] => [[]]
  | c :: cs =>
    if c = '\n' then [] :: splitNlCh cs
    else
      match splitNlCh cs with
      | [] => [[c]]
      | r :: rs => (c :: r) :: rs

/-- Embedding of JavaScript `s.split('\n')`. -/
def splitNl (s : String) : List String :=
  (splitNlCh s.data).map fun l => ⟨l⟩

/-- Replace the first occurrence of `pat` in a character list by `rep`; if
`pat` does not occur, the list is returned unchanged (the semantics of
JavaScript `s.replace(pat, rep)` with a string pattern). -/
def replaceFirstCh (pat rep : List Char) : List Char → List Char
  | [] => if pat = [] then rep else []
  | c :: cs =>
    if pat.isPrefixOf (c :: cs) then rep ++ (c :: cs).drop pat.length
    else c :: replaceFirstCh pat rep cs

/-- Embedding of JavaScript `s.replace(pat, rep)` with a string pattern and a
replacement containing no dollar patterns: the FIRST occurrence of `pat` is
replaced. -/
def jsReplace (s pat rep : String) : String :=
  ⟨replaceFirstCh pat.data rep.data s.data⟩

/-- Embedding of JavaScript `s.endsWith(suffix)`. -/
def jsEndsWith (s suffix : String) : Bool :=
  suffix.data.isSuffixOf s.data

/-- Modelled from the spec words, for comparison with the source embedding:
replace the TRAILING occurrence of the suffix `suffix` of `s` by `rep`
(the substitution the spec describes for paths ending in a given suffix);
`s` is returned unchanged when `suffix` is not a suffix of `s`. -/
def replaceSuffixSpec (s suffix rep : String) : String :=
  if suffix.data.isSuffixOf s.data then
    ⟨s.data.take (s.data.length - suffix.data.length) ++ rep.data⟩
  else s

/-! ## switchOcamlFile (src/extension.js lines 16-61)

The active editor is modelled by the optional path of its document; the
filesystem snapshot `fs` tells which paths exist (`fileExists`). The function
either returns a target path or shows an error message and returns null;
both outcomes are captured by `SwitchResult`. -/

/-- Outcome of `switchOcamlFile`: either the resolved target path, or the
error message shown before returning null. -/
inductive SwitchResult
  | ok (target : String)
  | err (message : String)
  deriving DecidableEq, Repr

/-- The final existence check of `switchOcamlFile` (lines 54-58): return the
target if it exists, else show the error message and return null. -/
def finalExistsCheck (fs : String → Bool) (targetFile errorMessage : String) : SwitchResult :=
  if fs targetFile then SwitchResult.ok targetFile else SwitchResult.err errorMessage

/-- Embedding of `switchOcamlFile` (lines 16-61). `fs` is the filesystem
snapshot, `activeEditor` the path of the active document (none when there is
no active editor). -/
def switchOcamlFile (fs : String → Bool) (activeEditor : Option String) : SwitchResult :=
  match activeEditor with
  | none => SwitchResult.err "No active editor found"
  | some currentFile =>
    if jsEndsWith currentFile "_intf.ml" then
      finalExistsCheck fs (jsReplace currentFile "_intf.ml" ".ml")
        ("No corresponding .ml file found for " ++ currentFile)
    else if jsEndsWith currentFile ".mli" then
      finalExistsCheck fs (jsReplace currentFile ".mli" ".ml")
        ("No corresponding .ml file found for " ++ currentFile)
    else if jsEndsWith currentFile ".ml" then
      let errorMessage := "Neither _intf.ml nor .mli file found for " ++ currentFile
      let candidateA := jsReplace currentFile ".ml" "_intf.ml"
      if fs candidateA then finalExistsCheck fs candidateA errorMessage
      else
        let candidateB := jsReplace currentFile ".ml" ".mli"
        if fs candidateB then finalExistsCheck fs candidateB errorMessage
        else SwitchResult.err errorMessage
    else SwitchResult.err "Not an OCaml implementation or interface file"

/-! ## Notifications and filesystem operations

User-visible notifications (`showErrorMessage` / `showInformationMessage`)
and the filesystem operations a command performs are recorded explicitly in
the outcomes of the embedded commands. -/

/-- A user-visible notification: an error or an information message. -/
inductive Notif
  | error (message : String)
  | info (message : String)
  deriving DecidableEq, Repr

/-- A filesystem operation performed on the manifest file: an existence
probe, a read, or a write of the given content. -/
inductive FsOp
  | probe (path : String)
  | read (path : String)
  | write (path : String) (content : String)
  deriving DecidableEq, Repr

/-! ## addToDuneWorkspace (src/extension.js lines 63-136)

The host inputs (workspace folders, active editor, the explicit context-menu
URI, the directory-dialog result and the alias quick-pick result) are
explicit fields of `DuneInput`; the manifest file at `<root>/dune` is
modelled by its optional content (`none` when the file does not exist).
Node's `path.relative` is an external library function and is passed in as
`pathRelative`. `fs.readFile`/`fs.writeFile` are modelled as succeeding;
the operations performed are recorded in the outcome. -/

/-- Host inputs of one `addToDuneWorkspace` run. `dialogResult = none` or
`some []` models a cancelled directory dialog; `aliasChoice = none` models a
dismissed alias quick pick. `manifest` is the content of the root `dune`
file, `none` when that file does not exist. -/
structure DuneInput where
  workspaceFolders : List String
  activeEditor : Option String
  selectedUri : Option String
  dialogResult : Option (List String)
  aliasChoice : Option String
  manifest : Option String
  deriving DecidableEq, Repr

/-- Outcome of one `addToDuneWorkspace` run: the manifest content afterwards,
the filesystem operations performed, and the notifications shown. -/
structure DuneOutcome where
  manifest : Option String
  ops : List FsOp
  notifs : List Notif
  deriving DecidableEq, Repr

/-- The stanza text built at lines 124-128 of the source for the given alias
type and relative path. -/
def mkStanza (aliasType relativePath : String) : String :=
  "(alias\n  (name " ++ aliasType ++ ")\n  (deps (alias_rec " ++ relativePath
    ++ "/" ++ aliasType ++ "))\n)\n"

/-- The selected directory path of an `addToDuneWorkspace` run (lines 78-102):
the explicit URI when one was passed, else the first entry of the directory
dialog result; `none` when the dialog was cancelled or returned no entry. -/
def selectedPathOf (inp : DuneInput) : Option String :=
  match inp.selectedUri with
  | some u => some u
  | none =>
    match inp.dialogResult with
    | some (d :: _) => some d
    | _ => none

/-- Embedding of `addToDuneWorkspace` (lines 63-136). The early returns show
an error or silently cancel without touching the filesystem; the main path
probes the manifest, reads it when it exists, and writes the new stanza
followed by the previous content. An `aliasChoice` of the empty string is
falsy in the source check at line 111 and cancels like a dismissal. -/
def addToDuneWorkspace (pathRelative : String → String → String) (inp : DuneInput) : DuneOutcome :=
  match inp.workspaceFolders with
  | [] => ⟨inp.manifest, [], [Notif.error "No workspace opened"]⟩
  | root :: _ =>
    match inp.activeEditor with
    | none => ⟨inp.manifest, [], [Notif.error "No active editor"]⟩
    | some _ =>
      match selectedPathOf inp with
      | none => ⟨inp.manifest, [], []⟩
      | some selectedPath =>
        let relativePath := pathRelative root selectedPath
        match inp.aliasChoice with
        | none => ⟨inp.manifest, [], []⟩
        | some aliasType =>
          if aliasType = "" then ⟨inp.manifest, [], []⟩
          else
            let rootDunePath := root ++ "/dune"
            let content := match inp.manifest with | some c => c | none => ""
            let newContent := mkStanza aliasType relativePath ++ content
            ⟨some newContent,
             [FsOp.probe rootDunePath]
               ++ (match inp.manifest with | some _ => [FsOp.read rootDunePath] | none => [])
               ++ [FsOp.write rootDunePath newContent],
             [Notif.info ("Successfully added " ++ relativePath
               ++ " to dune workspace as " ++ aliasType ++ " with default action")]⟩

/-! ## Promotion driver (src/extension.js lines 138-220)

`child_process.exec` is modelled by a pure runner mapping the working
directory and the command line to an `ExecResult`; the `error` argument of
the exec callback is modelled by its optional string rendering (`none` for a
null error). A promise settles as resolved or rejected (`PromiseOutcome`);
a thrown exception inside an async function rejects its promise. -/

/-- Result of one external-process execution: the callback arguments
`(error, stdout, stderr)`, with `error = none` for a null error object and
`error = some e` when the command failed with string rendering `e`. -/
structure ExecResult where
  error : Option String
  stdout : String
  stderr : String
  deriving DecidableEq, Repr

/-- How a promise settles: resolved with a value, or rejected with the
string rendering of the rejection payload. -/
inductive PromiseOutcome (α : Type)
  | resolved (value : α)
  | rejected (payload : String)
  deriving DecidableEq, Repr

/-- The command line built at lines 141-144 of the source: the bare apply
subcommand when `file` is absent or empty (both falsy in the source
conditional), else the subcommand with the file path in double quotes. -/
def buildPromoteCmd (file : Option String) : String :=
  match file with
  | none => "dune promotion apply"
  | some f => if f = "" then "dune promotion apply" else "dune promotion apply \"" ++ f ++ "\""

/-- Embedding of `executeDunePromote` (lines 138-159): run the built command
in the workspace root; reject with the `{ error, stderr }` payload on error,
else resolve with the captured stdout. The executed command line is returned
alongside so runs can be observed. -/
def executeDunePromote (runner : String → String → ExecResult) (workspaceRoot : String)
    (file : Option String) : PromiseOutcome String × String :=
  let fullCmd := buildPromoteCmd file
  let r := runner workspaceRoot fullCmd
  (match r.error with
   | some e => PromiseOutcome.rejected (e ++ " " ++ r.stderr)
   | none => PromiseOutcome.resolved r.stdout,
   fullCmd)

/-- Embedding of `getPromotionCandidates` (lines 161-174) applied to the exec
result of `dune promotion list`: on an error or a blank diagnostic stream,
show an error notification and resolve with the empty list; otherwise resolve
with the trimmed output split at newlines, each piece trimmed. The promise
executor only ever resolves. -/
def getPromotionCandidates (r : ExecResult) : PromiseOutcome (List String) × List Notif :=
  if r.error.isSome || jsTrim r.stderr = "" then
    (PromiseOutcome.resolved [],
     [Notif.error ("dune promotion list error: " ++ (r.error.getD "null") ++ " " ++ r.stderr)])
  else
    (PromiseOutcome.resolved ((splitNl (jsTrim r.stderr)).map jsTrim), [])

/-- A quick-pick entry of `promoteCorrectedFiles` (lines 191-204). -/
structure QuickPickItem where
  label : String
  description : String
  filePath : Option String
  isPromoteAll : Bool
  deriving DecidableEq, Repr

/-- The quick-pick entries built at lines 191-204: the promote-all
pseudo-entry followed by one entry per candidate, whose description is the
candidate path itself. `basename` models Node's `path.basename`. -/
def mkPromotionOptions (basename : String → String) (candidates : List String) : List QuickPickItem :=
  ⟨"$(check-all) Promote all files", "Accept all pending promotions", none, true⟩
    :: candidates.map fun filePath => ⟨basename filePath, filePath, some filePath, false⟩

/-- The target argument computed from the chosen entry at line 214 of the
source: null exactly when the chosen description is the literal promote-all
description. -/
def promoteArgOf (choice : QuickPickItem) : Option String :=
  if choice.description = "Accept all pending promotions" then none else some choice.description

/-- The JavaScript values that reach the `result.success` check at line 216:
the resolved stdout string, or undefined. -/
inductive JsValue
  | undef
  | str (s : String)
  deriving DecidableEq, Repr

/-- Property access `v.success` in JavaScript: neither undefined nor a plain
string value has a `success` property, so the access yields undefined (on
undefined itself the source would throw first, but that path never carries
undefined here). -/
def getSuccessProp : JsValue → JsValue
  | _ => JsValue.undef

/-- JavaScript truthiness of the embedded values: undefined is falsy, a
string is truthy iff it is non-empty. -/
def jsTruthy : JsValue → Bool
  | JsValue.undef => false
  | JsValue.str s => s ≠ ""

/-- Outcome of one `promoteCorrectedFiles` run: how the async command promise
settles, the notifications shown, and the external command lines executed in
order. -/
structure PromoteOutcome where
  outcome : PromiseOutcome Unit
  notifs : List Notif
  cmds : List String
  deriving DecidableEq, Repr

/-- Embedding of `promoteCorrectedFiles` (lines 176-220). `pick` models the
quick-pick interaction: from the presented entries to the chosen one, `none`
when the user dismisses the picker. A dismissed picker makes line 212 read
`description` of undefined, throwing a TypeError that rejects the command
promise; a rejected apply promise is not caught either. On a resolved apply,
`result` is the stdout string, whose `success` property is undefined and
falsy, so the failure notification is shown and then the success one. -/
def promoteCorrectedFiles (basename : String → String) (runner : String → String → ExecResult)
    (workspaceFolders : List String) (pick : List QuickPickItem → Option QuickPickItem) :
    PromoteOutcome :=
  match workspaceFolders with
  | [] => ⟨PromiseOutcome.resolved (), [Notif.error "No workspace opened"], []⟩
  | rootPath :: _ =>
    let listRes := getPromotionCandidates (runner rootPath "dune promotion list")
    match listRes.1 with
    | PromiseOutcome.rejected e => ⟨PromiseOutcome.rejected e, listRes.2, ["dune promotion list"]⟩
    | PromiseOutcome.resolved candidates =>
      if candidates.length = 0 then
        ⟨PromiseOutcome.resolved (), listRes.2 ++ [Notif.info "No .corrected files found"],
         ["dune promotion list"]⟩
      else
        match pick (mkPromotionOptions basename candidates) with
        | none =>
          ⟨PromiseOutcome.rejected "TypeError: cannot read description of undefined",
           listRes.2, ["dune promotion list"]⟩
        | some choice =>
          let arg := promoteArgOf choice
          let applyRes := executeDunePromote runner rootPath arg
          match applyRes.1 with
          | PromiseOutcome.rejected e =>
            ⟨PromiseOutcome.rejected e, listRes.2, ["dune promotion list", applyRes.2]⟩
          | PromiseOutcome.resolved result =>
            let failNotifs :=
              if jsTruthy (getSuccessProp (JsValue.str result)) then []
              else [Notif.error "Failed to promote files"]
            ⟨PromiseOutcome.resolved (),
             listRes.2 ++ failNotifs ++ [Notif.info "Promotion success"],
             ["dune promotion list", applyRes.2]⟩

/-! ## Claims -/

/-- Claim C1: for every path ending in `.ml` (and not in `_intf.ml` or
`.mli`), resolution first computes the candidate obtained by substituting
`_intf.ml` for `.ml`; if that candidate exists it is returned, otherwise the
candidate obtained by substituting `.mli` is returned if it exists, and if
neither exists resolution fails with the no-match message naming both
candidate suffixes and the source path. -/
theorem C1_ml_resolution (fs : String → Bool) (p : String)
    (h1 : jsEndsWith p ".ml" = true)
    (h2 : jsEndsWith p "_intf.ml" = false)
    (h3 : jsEndsWith p ".mli" = false) :
    switchOcamlFile fs (some p) =
      (if fs (jsReplace p ".ml" "_intf.ml") then
        SwitchResult.ok (jsReplace p ".ml" "_intf.ml")
      else if fs (jsReplace p ".ml" ".mli") then
        SwitchResult.ok (jsReplace p ".ml" ".mli")
      else SwitchResult.err ("Neither _intf.ml nor .mli file found for " ++ p)) := by
  simp only [switchOcamlFile, h1, h2, h3, Bool.false_eq_true, if_false, if_true, ite_true,
    ite_false]
  by_cases hA : fs (jsReplace p ".ml" "_intf.ml") <;>
    by_cases hB : fs (jsReplace p ".ml" ".mli") <;>
      simp [finalExistsCheck, hA, hB]

/-- Witness for C1 at a concrete input: `/d/foo.ml` with an existing
`/d/foo_intf.ml` resolves to `/d/foo_intf.ml`. -/
theorem C1_witness :
    switchOcamlFile (fun q => q == "/d/foo_intf.ml") (some "/d/foo.ml") =
      SwitchResult.ok "/d/foo_intf.ml" := by
  rw [C1_ml_resolution (fun q => q == "/d/foo_intf.ml") "/d/foo.ml"
    (by decide) (by decide) (by decide)]
  decide

/-- Claim C2 counterexample: `a_intf.mlb_intf.ml` ends in `_intf.ml` and also
contains `_intf.ml` before the suffix position; with the suffix-substituted
counterpart `a_intf.mlb.ml` being the only existing file, the claim says
resolution returns it, but the source replaces the FIRST occurrence of
`_intf.ml`, probes the non-existent `a.mlb_intf.ml`, and fails. -/
theorem C2_counterexample :
    jsEndsWith "a_intf.mlb_intf.ml" "_intf.ml" = true ∧
    replaceSuffixSpec "a_intf.mlb_intf.ml" "_intf.ml" ".ml" = "a_intf.mlb.ml" ∧
    (fun q => q == "a_intf.mlb.ml") "a_intf.mlb.ml" = true ∧
    switchOcamlFile (fun q => q == "a_intf.mlb.ml") (some "a_intf.mlb_intf.ml") ≠
      SwitchResult.ok "a_intf.mlb.ml" := by
  decide

/-- Claim C2 (amended): for every path ending in the suffix `_intf.ml`,
resolution returns the path with the FIRST occurrence of `_intf.ml` replaced
by `.ml` when that file exists, and fails with the no-match message when it
does not; when `_intf.ml` also occurs before the suffix position, the
earlier occurrence is the one replaced. -/
theorem C2_amended_resolution (fs : String → Bool) (p : String)
    (h : jsEndsWith p "_intf.ml" = true) :
    switchOcamlFile fs (some p) =
      (if fs (jsReplace p "_intf.ml" ".ml") then
        SwitchResult.ok (jsReplace p "_intf.ml" ".ml")
      else SwitchResult.err ("No corresponding .ml file found for " ++ p)) := by
  simp only [switchOcamlFile, h, if_true, ite_true, finalExistsCheck]

/-- Witness for the amended C2 at a concrete input: `a_intf.ml` with an
existing `a.ml` resolves to `a.ml`. -/
theorem C2_amended_witness :
    switchOcamlFile (fun q => q == "a.ml") (some "a_intf.ml") =
      SwitchResult.ok "a.ml" := by
  rw [C2_amended_resolution (fun q => q == "a.ml") "a_intf.ml" (by decide)]
  decide

/-- Claim C3: for every prior manifest content (the empty string when the
manifest file does not exist) and generated stanza, a successful manifest
edit leaves the manifest containing exactly the stanza followed byte-for-byte
by the prior content. -/
theorem C3_prepend (pathRelative : String → String → String) (inp : DuneInput)
    (root : String) (rest : List String) (e sel aliasType : String)
    (hw : inp.workspaceFolders = root :: rest)
    (he : inp.activeEditor = some e)
    (hs : selectedPathOf inp = some sel)
    (ha : inp.aliasChoice = some aliasType)
    (ha0 : aliasType ≠ "") :
    (addToDuneWorkspace pathRelative inp).manifest =
      some (mkStanza aliasType (pathRelative root sel) ++ inp.manifest.getD "") := by
  simp only [addToDuneWorkspace, hw, he, hs, ha, if_neg ha0]
  cases hm : inp.manifest <;> simp [hm]

/-- Witness for C3 at a concrete input: adding alias `runtest` for directory
`lib/x` prepends the generated stanza to the previous manifest content. -/
theorem C3_witness :
    (addToDuneWorkspace (fun _ s => s)
      ⟨["/ws"], some "/ws/f.ml", some "lib/x", none, some "runtest", some "(old stanza)\n"⟩).manifest
      = some (mkStanza "runtest" "lib/x" ++ "(old stanza)\n") := by
  rw [C3_prepend (fun _ s => s)
    ⟨["/ws"], some "/ws/f.ml", some "lib/x", none, some "runtest", some "(old stanza)\n"⟩
    "/ws" [] "/ws/f.ml" "lib/x" "runtest" rfl rfl rfl rfl (by decide)]
  rfl

/-- Claim C8: for every run of addToDuneWorkspace in which the alias-type
picker is cancelled, no filesystem operation is performed and the manifest
content is unchanged. -/
theorem C8_cancel_no_mutation (pathRelative : String → String → String) (inp : DuneInput)
    (h : inp.aliasChoice = none) :
    (addToDuneWorkspace pathRelative inp).manifest = inp.manifest ∧
    (addToDuneWorkspace pathRelative inp).ops = [] := by
  obtain ⟨wf, ae, su, dr, ac, mf⟩ := inp
  simp only at h
  subst h
  rcases wf with _ | ⟨root, rest⟩ <;> rcases ae with _ | e <;>
    rcases su with _ | u <;> rcases dr with _ | ⟨_ | ⟨d, ds⟩⟩ <;>
      simp [addToDuneWorkspace, selectedPathOf]

/-- Witness for C8 at a concrete input: cancelling the alias picker leaves
the manifest as it was and performs no filesystem operation. -/
theorem C8_witness :
    (addToDuneWorkspace (fun _ s => s)
      ⟨["/ws"], some "/ws/f.ml", some "lib/x", none, none, some "keep me"⟩).manifest
        = some "keep me" ∧
    (addToDuneWorkspace (fun _ s => s)
      ⟨["/ws"], some "/ws/f.ml", some "lib/x", none, none, some "keep me"⟩).ops = [] :=
  C8_cancel_no_mutation (fun _ s => s)
    ⟨["/ws"], some "/ws/f.ml", some "lib/x", none, none, some "keep me"⟩ rfl

/-- Claim C4 counterexample: diagnostic output with an interior blank line
(two consecutive newlines between two paths) yields a candidate list that
KEEPS the blank line as an empty-string entry, not only the non-blank
paths as the claim states. -/
theorem C4_counterexample :
    (getPromotionCandidates ⟨none, "", "a.ml.corrected\n\nb.ml.corrected"⟩).1
        = PromiseOutcome.resolved ["a.ml.corrected", "", "b.ml.corrected"] ∧
    (getPromotionCandidates ⟨none, "", "a.ml.corrected\n\nb.ml.corrected"⟩).1
        ≠ PromiseOutcome.resolved ["a.ml.corrected", "b.ml.corrected"] := by
  decide

/-- Claim C4 (amended): for every non-erroring, non-blank diagnostic-stream
output of the promotion-listing subcommand, the parsed candidate list is the
whole output trimmed of surrounding whitespace, split at newlines, with each
piece trimmed of surrounding whitespace; blank lines disappear only at the
two ends through the whole-output trim, while interior blank lines remain as
empty-string candidates. -/
theorem C4_amended_parse (r : ExecResult)
    (h1 : r.error = none) (h2 : jsTrim r.stderr ≠ "") :
    (getPromotionCandidates r).1
      = PromiseOutcome.resolved ((splitNl (jsTrim r.stderr)).map jsTrim) := by
  simp [getPromotionCandidates, h1, h2]

/-- Witness for the amended C4 at a concrete input: two candidate lines,
the first with surrounding whitespace, parse to the two trimmed paths. -/
theorem C4_amended_witness :
    (getPromotionCandidates ⟨none, "", " a.corrected \nb.corrected"⟩).1
      = PromiseOutcome.resolved ["a.corrected", "b.corrected"] := by
  rw [C4_amended_parse ⟨none, "", " a.corrected \nb.corrected"⟩ rfl (by decide)]
  decide

/-- Claim C5: whenever the listing subcommand errors or its diagnostic stream
is blank after trimming, the caller receives the empty candidate list
together with an error notification; and for every exec result the listing
promise resolves, never rejects. -/
theorem C5_listing_total :
    (∀ r : ExecResult, r.error.isSome = true ∨ jsTrim r.stderr = "" →
      getPromotionCandidates r =
        (PromiseOutcome.resolved [],
         [Notif.error ("dune promotion list error: " ++ (r.error.getD "null") ++ " "
           ++ r.stderr)])) ∧
    (∀ r : ExecResult, ∃ v, (getPromotionCandidates r).1 = PromiseOutcome.resolved v) := by
  constructor
  · intro r h
    rcases h with h | h <;> simp [getPromotionCandidates, h]
  · intro r
    unfold getPromotionCandidates
    split
    · exact ⟨[], rfl⟩
    · exact ⟨_, rfl⟩

/-- Witness for C5 at a concrete input: an erroring listing invocation yields
the empty list and the error notification. -/
theorem C5_witness :
    getPromotionCandidates ⟨some "Error: failed", "", ""⟩ =
      (PromiseOutcome.resolved [],
       [Notif.error "dune promotion list error: Error: failed "]) := by
  rw [C5_listing_total.1 ⟨some "Error: failed", "", ""⟩ (Or.inl rfl)]
  decide

/-- Claim C6: applying with an absent target builds exactly the bare apply
subcommand; applying with a non-empty target builds the subcommand followed
by the target in double quotes (a target of the empty string is falsy in the
source conditional and builds the bare subcommand as well); and the command
executed by executeDunePromote is exactly the built one. -/
theorem C6_apply_cmd :
    buildPromoteCmd none = "dune promotion apply" ∧
    (∀ f : String, f ≠ "" →
      buildPromoteCmd (some f) = "dune promotion apply \"" ++ f ++ "\"") ∧
    (∀ (runner : String → String → ExecResult) (workspaceRoot : String) (file : Option String),
      (executeDunePromote runner workspaceRoot file).2 = buildPromoteCmd file) := by
  refine ⟨rfl, fun f hf => ?_, fun _ _ _ => rfl⟩
  simp [buildPromoteCmd, hf]

/-- Witness for C6 at a concrete input: a target containing a space is
appended in double quotes. -/
theorem C6_witness :
    buildPromoteCmd (some "a b.ml") = "dune promotion apply \"a b.ml\"" := by
  rw [C6_apply_cmd.2.1 "a b.ml" (by decide)]
  decide

/-- Claim C7, evaluated at the failing inputs: with one listed candidate,
dismissing the promotion picker makes the command promise reject with the
TypeError raised at the description read, and a failing apply subcommand
makes the command promise reject with the apply error; neither error is
converted to a notification, contradicting the claim that every error is
caught at the command boundary. -/
theorem C7_errors_escape :
    (promoteCorrectedFiles (fun s => s)
      (fun _ cmd => if cmd = "dune promotion list" then ⟨none, "", "a.ml.corrected"⟩
        else ⟨none, "", ""⟩)
      ["/ws"] (fun _ => none)).outcome
      = PromiseOutcome.rejected "TypeError: cannot read description of undefined" ∧
    (promoteCorrectedFiles (fun s => s)
      (fun _ cmd => if cmd = "dune promotion list" then ⟨none, "", "a.ml.corrected"⟩
        else ⟨some "Error: apply failed", "", "boom"⟩)
      ["/ws"] (fun opts => opts.get? 1)).outcome
      = PromiseOutcome.rejected "Error: apply failed boom" := by
  decide

/-- Claim C9: the promote-all choice is distinguished solely by the chosen
description being the literal promote-all text, so for any listed candidate
whose path equals that literal, the quick-pick entry built for the candidate
itself maps to a null target and the bare apply-all command line. -/
theorem C9_literal_collision (basename : String → String)
    (candidates : List String) (fp : String)
    (hmem : fp ∈ candidates) (hfp : fp = "Accept all pending promotions") :
    (∀ c₁ c₂ : QuickPickItem, c₁.description = c₂.description →
      promoteArgOf c₁ = promoteArgOf c₂) ∧
    (⟨basename fp, fp, some fp, false⟩ : QuickPickItem)
        ∈ mkPromotionOptions basename candidates ∧
    promoteArgOf ⟨basename fp, fp, some fp, false⟩ = none ∧
    buildPromoteCmd (promoteArgOf ⟨basename fp, fp, some fp, false⟩)
        = "dune promotion apply" := by
  refine ⟨fun c₁ c₂ h => by simp [promoteArgOf, h], ?_, ?_, ?_⟩
  · exact List.mem_cons_of_mem _
      (List.mem_map_of_mem
        (fun filePath => (⟨basename filePath, filePath, some filePath, false⟩ : QuickPickItem))
        hmem)
  · simp [promoteArgOf, hfp]
  · simp [promoteArgOf, hfp, buildPromoteCmd]

/-- Witness for C9 at a concrete input: a candidate named exactly like the
promote-all description maps to the bare apply-all command line. -/
theorem C9_witness :
    buildPromoteCmd (promoteArgOf ⟨"Accept all pending promotions",
      "Accept all pending promotions", some "Accept all pending promotions", false⟩)
      = "dune promotion apply" :=
  (C9_literal_collision (fun s => s) ["Accept all pending promotions"]
    "Accept all pending promotions" (by decide) rfl).2.2.2

/-- Claim C10: on every run reaching a successful apply, the resolved result
is the plain stdout string, whose success property is undefined, so the
command shows the failure notification followed by the success notification,
and the command promise still resolves. -/
theorem C10_success_double_notify (basename : String → String)
    (runner : String → String → ExecResult) (rootPath : String) (rest : List String)
    (pick : List QuickPickItem → Option QuickPickItem)
    (candidates : List String) (choice : QuickPickItem)
    (hlist : (getPromotionCandidates (runner rootPath "dune promotion list")).1
        = PromiseOutcome.resolved candidates)
    (hne : candidates ≠ [])
    (hpick : pick (mkPromotionOptions basename candidates) = some choice)
    (happly : (runner rootPath (buildPromoteCmd (promoteArgOf choice))).error = none) :
    getSuccessProp (JsValue.str (runner rootPath
        (buildPromoteCmd (promoteArgOf choice))).stdout) = JsValue.undef ∧
    (promoteCorrectedFiles basename runner (rootPath :: rest) pick).outcome
        = PromiseOutcome.resolved () ∧
    (promoteCorrectedFiles basename runner (rootPath :: rest) pick).notifs
        = (getPromotionCandidates (runner rootPath "dune promotion list")).2
            ++ [Notif.error "Failed to promote files", Notif.info "Promotion success"] := by
  have hlen : ¬ candidates.length = 0 := by
    simpa [List.length_eq_zero] using hne
  refine ⟨rfl, ?_, ?_⟩ <;>
    simp [promoteCorrectedFiles, hlist, hlen, hpick, executeDunePromote, happly,
      getSuccessProp, jsTruthy]

/-- Witness for C10 at a concrete input: a successful targeted apply shows
the failure notification and then the success notification. -/
theorem C10_witness :
    (promoteCorrectedFiles (fun s => s)
      (fun _ cmd => if cmd = "dune promotion list" then ⟨none, "", "a.ml.corrected"⟩
        else ⟨none, "ok", ""⟩)
      ["/ws"] (fun opts => opts.get? 1)).notifs
      = [Notif.error "Failed to promote files", Notif.info "Promotion success"] := by
  rw [(C10_success_double_notify (fun s => s)
    (fun _ cmd => if cmd = "dune promotion list" then ⟨none, "", "a.ml.corrected"⟩
      else ⟨none, "ok", ""⟩)
    "/ws" [] (fun opts => opts.get? 1) ["a.ml.corrected"]
    ⟨"a.ml.corrected", "a.ml.corrected", some "a.ml.corrected", false⟩
    (by decide) (by decide) (by decide) (by decide)).2.2]
  decide

end OcamlExt
